import Mathlib

/-!
Shallow embedding of the three environments of this repository
(`envs/dsdp.py`, `envs/gridworld.py`, `envs/point_maze.py`) and proofs of
the specification claims about them.

Randomness is made explicit: every random draw the Python code performs
becomes a parameter of the embedded function, so each embedded operation is
a pure function of the state and the drawn values.
-/

/-! ## Discrete Stochastic Decision Process (`envs/dsdp.py`) -/

/-- Number of states of the chain (`TOTAL_STATES = 6`). -/
def TOTAL_STATES : Int := 6

/-- State of `DiscreteStochasticDecisionProcess`: the integer position and the
`visited_last` flag. -/
structure DSDPState where
  current_state : Int
  visited_last : Bool
deriving DecidableEq, Repr

/-- `one_hot(n)`: builds a 6-element one-hot vector `buffer` with
`buffer[n] = 1.0`.  NumPy indexing accepts `-6 ≤ n < 6` (negative indices wrap
from the end) and raises `IndexError` otherwise; failure is modelled as
`none`. -/
def one_hot (n : Int) : Option (List ℚ) :=
  if -TOTAL_STATES ≤ n ∧ n < TOTAL_STATES then
    some ((List.range 6).map
      (fun i => if (i : Int) = (if n < 0 then n + TOTAL_STATES else n) then 1 else 0))
  else
    none

/-- The state transition of `DiscreteStochasticDecisionProcess.step`
(lines 27–37): action 0 moves left; otherwise the drawn `roll` moves right
when `roll > 0.5` and the state is not 5, else left; reaching 5 sets
`visited_last`. -/
def dsdpTransition (s : DSDPState) (action : Nat) (roll : ℚ) : DSDPState :=
  let cs :=
    if action = 0 then s.current_state - 1
    else if roll > 1/2 ∧ s.current_state ≠ 5 then s.current_state + 1
    else s.current_state - 1
  { current_state := cs
    visited_last := if cs = 5 then true else s.visited_last }

/-- `DiscreteStochasticDecisionProcess.step` (lines 25–40): returns
`(observation, reward, done, new state)`, or `none` when `one_hot` raises. -/
def dsdpStep (s : DSDPState) (action : Nat) (roll : ℚ) :
    Option (List ℚ × ℚ × Bool × DSDPState) :=
  let s' := dsdpTransition s action roll
  match one_hot s'.current_state with
  | none => none
  | some obs =>
      if s'.current_state = 0 then
        some (obs, 1 / (if s'.visited_last then 1 else 100), true, s')
      else
        some (obs, 0, false, s')

/-- Runs a sequence of `(action, roll)` pairs through `dsdpStep`, propagating
failure. -/
def dsdpRun (s : DSDPState) : List (Nat × ℚ) → Option DSDPState
  | [] => some s
  | (a, r) :: rest =>
      match dsdpStep s a r with
      | none => none
      | some (_, _, _, s') => dsdpRun s' rest

/-- `DiscreteStochasticDecisionProcess.reset` (lines 42–45). -/
def dsdpReset : DSDPState := { current_state := 1, visited_last := false }

/-! ## GridWorld (`envs/gridworld.py`) -/

/-- State of a `GridWorld` instance: the construction parameters together with
all mutable episode state.  `doors` is the dict-of-lists door map flattened to
a list of directed pairs: `b ∈ doors[a]` in Python iff `(a, b)` is in the
list. -/
structure GridWorld where
  ROOM_SIZE : Int
  ROOM_COUNT : Int
  MAX_STEPS : Int
  player : Int
  key : Int
  car : Int
  doors : List (Int × Int)
  door_pairing : List Int
  visited_key : Bool
  steps : Int
deriving DecidableEq, Repr

/-- `coord_to_pos(x, y) = x + ROOM_COUNT * ROOM_SIZE * y` (line 43). -/
def coord_to_pos (RS RC x y : Int) : Int := x + RC * RS * y

/-- `pos_to_coord(pos) = (pos % (RS*RC), pos // (RS*RC))` (line 46); Python's
floored `%` and `//` agree with `Int.emod`/`Int.ediv` for a positive
divisor. -/
def pos_to_coord (RS RC pos : Int) : Int × Int :=
  (Int.emod pos (RS * RC), Int.ediv pos (RS * RC))

/-- The horizontal boundary segments visited by the generation loop of
`reset` (lines 58–61): for each `hor < ROOM_COUNT - 1` and each room index
`i < ROOM_COUNT`, with drawn offset `hoff hor i`, the coordinates
`(x_coord, y_coord)` of the cell just below the boundary. -/
def horSegments (RS RC : Nat) (hoff : Nat → Nat → Int) : List (Int × Int) :=
  (List.range (RC - 1)).flatMap (fun hor =>
    (List.range RC).map (fun i =>
      (hoff hor i + (i : Int) * RS, ((hor : Int) + 1) * RS)))

/-- The vertical boundary segments of the generation loop (lines 73–76). -/
def vertSegments (RS RC : Nat) (voff : Nat → Nat → Int) : List (Int × Int) :=
  (List.range (RC - 1)).flatMap (fun vert =>
    (List.range RC).map (fun i =>
      (((vert : Int) + 1) * RS, voff vert i + (i : Int) * RS)))

/-- The door map built by `reset` (lines 63–68 and 78–83): each horizontal
segment links `(x, y)` with `(x, y-1)` in both directions, each vertical
segment links `(x, y)` with `(x-1, y)` in both directions. -/
def gwDoors (RS RC : Nat) (hoff voff : Nat → Nat → Int) : List (Int × Int) :=
  (horSegments RS RC hoff).flatMap (fun c =>
    [(coord_to_pos RS RC c.1 c.2, coord_to_pos RS RC c.1 (c.2 - 1)),
     (coord_to_pos RS RC c.1 (c.2 - 1), coord_to_pos RS RC c.1 c.2)])
  ++ (vertSegments RS RC voff).flatMap (fun c =>
    [(coord_to_pos RS RC c.1 c.2, coord_to_pos RS RC (c.1 - 1) c.2),
     (coord_to_pos RS RC (c.1 - 1) c.2, coord_to_pos RS RC c.1 c.2)])

/-- The `door_pairing` list built by `reset`: lines 70–71 append
`(x, y)` and `(x, y-1)` for a horizontal segment; lines 85–86 append
`(x, y)` and `(x + 1, y)` for a vertical segment (note: `x + 1`, exactly as
in the source). -/
def gwPairing (RS RC : Nat) (hoff voff : Nat → Nat → Int) : List Int :=
  (horSegments RS RC hoff).flatMap (fun c =>
    [coord_to_pos RS RC c.1 c.2, coord_to_pos RS RC c.1 (c.2 - 1)])
  ++ (vertSegments RS RC voff).flatMap (fun c =>
    [coord_to_pos RS RC c.1 c.2, coord_to_pos RS RC (c.1 + 1) c.2])

/-- `GridWorld.reset` (lines 49–90) combined with the constants fixed by
`__init__`: the player/key/car coordinate draws and the door offset draws are
explicit parameters. -/
def gwReset (RS RC : Nat) (pd kd cd : Int × Int) (hoff voff : Nat → Nat → Int) :
    GridWorld :=
  { ROOM_SIZE := RS
    ROOM_COUNT := RC
    MAX_STEPS := 2 * ((RS : Int) * RS * RC * RC)
    player := coord_to_pos RS RC pd.1 pd.2
    key := coord_to_pos RS RC kd.1 kd.2
    car := coord_to_pos RS RC cd.1 cd.2
    doors := gwDoors RS RC hoff voff
    door_pairing := gwPairing RS RC hoff voff
    visited_key := false
    steps := 0 }

/-- `actions_to_move = {0: (0, -1), 1: (0, 1), 2: (-1, 0), 3: (1, 0)}`
(line 40). -/
def actions_to_move (a : Fin 4) : Int × Int :=
  match a with
  | 0 => (0, -1)
  | 1 => (0, 1)
  | 2 => (-1, 0)
  | 3 => (1, 0)

/-- `allowed(pos, new_pos)` (lines 95–98): `new_pos ∈ doors[pos]`. -/
def gwAllowed (g : GridWorld) (pos new_pos : Int) : Bool :=
  (pos, new_pos) ∈ g.doors

/-- The destination test of `step` (lines 110–111): the move leaves the full
grid. -/
def gwOutOfBounds (g : GridWorld) (a : Fin 4) : Prop :=
  let d := actions_to_move a
  let p := pos_to_coord g.ROOM_SIZE g.ROOM_COUNT g.player
  let side := g.ROOM_SIZE * g.ROOM_COUNT
  p.1 + d.1 < 0 ∨ p.1 + d.1 ≥ side ∨ p.2 + d.2 < 0 ∨ p.2 + d.2 ≥ side

instance (g : GridWorld) (a : Fin 4) : Decidable (gwOutOfBounds g a) := by
  unfold gwOutOfBounds; infer_instance

/-- The room-boundary test of `step` (lines 116–119): the coordinate wraps
across a room-size multiple in the direction of travel. -/
def gwCrossesBoundary (g : GridWorld) (a : Fin 4) : Prop :=
  let d := actions_to_move a
  let p := pos_to_coord g.ROOM_SIZE g.ROOM_COUNT g.player
  let RS := g.ROOM_SIZE
  (Int.emod p.1 RS = 0 ∧ Int.emod (p.1 + d.1) RS = RS - 1) ∨
  (Int.emod p.1 RS = RS - 1 ∧ Int.emod (p.1 + d.1) RS = 0) ∨
  (Int.emod p.2 RS = 0 ∧ Int.emod (p.2 + d.2) RS = RS - 1) ∨
  (Int.emod p.2 RS = RS - 1 ∧ Int.emod (p.2 + d.2) RS = 0)

instance (g : GridWorld) (a : Fin 4) : Decidable (gwCrossesBoundary g a) := by
  unfold gwCrossesBoundary; infer_instance

/-- The movement phase of `step` (lines 106–125): returns the player position
after the move together with the movement/collision reward (0 for a legal
move, −2 for a rejected one). -/
def gwMove (g : GridWorld) (a : Fin 4) : Int × Int :=
  let d := actions_to_move a
  let p := pos_to_coord g.ROOM_SIZE g.ROOM_COUNT g.player
  let new_pos := coord_to_pos g.ROOM_SIZE g.ROOM_COUNT (p.1 + d.1) (p.2 + d.2)
  if gwOutOfBounds g a then
    (g.player, -2)
  else if gwCrossesBoundary g a then
    if gwAllowed g g.player new_pos then (new_pos, 0) else (g.player, -2)
  else
    (new_pos, 0)

/-- `GridWorld.step` (lines 101–140): movement phase, then key pickup
(overwrites the reward with 10), then car pickup (adds 40, gated by
`visited_key`), then the time limit.  Returns `(new state, reward, done)`;
the observation is recoverable from the state fields. -/
def gwStep (g : GridWorld) (a : Fin 4) : GridWorld × Int × Bool :=
  let steps1 := g.steps + 1
  let m := gwMove g a
  let keyHit := m.1 = g.key
  let key1 := if keyHit then -1 else g.key
  let vk1 := if keyHit then true else g.visited_key
  let reward2 := if keyHit then 10 else m.2
  let carHit := m.1 = g.car ∧ vk1 = true
  let car1 := if carHit then -1 else g.car
  let reward3 := if carHit then reward2 + 40 else reward2
  let done1 := if carHit then true else false
  let done2 := if steps1 > g.MAX_STEPS then true else done1
  ({ g with
      player := m.1
      key := key1
      car := car1
      visited_key := vk1
      steps := steps1 }, reward3, done2)

/-- Runs a sequence of actions through `gwStep`, keeping only the state. -/
def gwRun (g : GridWorld) (acts : List (Fin 4)) : GridWorld :=
  acts.foldl (fun s a => (gwStep s a).1) g

/-! ## PointMaze (`envs/point_maze.py`)

The continuous dynamics are modelled over `ℝ`; Python's float `%` with a
positive modulus is real floored remainder `fmod`, and `math.floor` is
`Int.floor`. -/

/-- A cell of the maze grid: `1` (wall), `0` (open floor), or `'r'` (the goal
square). -/
inductive Cell where
  | wall : Cell
  | floor : Cell
  | goal : Cell
deriving DecidableEq, Repr

/-- The fixed 5×5 maze of `PointMazeEnv.__init__` (lines 52–58), row-major
with row 0 at the top. -/
def pmMaze : List (List Cell) :=
  [[Cell.wall, Cell.wall, Cell.wall, Cell.wall, Cell.wall],
   [Cell.wall, Cell.goal, Cell.floor, Cell.floor, Cell.wall],
   [Cell.wall, Cell.wall, Cell.wall, Cell.floor, Cell.wall],
   [Cell.wall, Cell.floor, Cell.floor, Cell.floor, Cell.wall],
   [Cell.wall, Cell.wall, Cell.wall, Cell.wall, Cell.wall]]

/-- `maze_width = maze_height = 5`. -/
def pmSize : Int := 5

/-- Looks up `maze[row][col]`; only ever consulted at indices the bounds
check of `is_colliding` has validated. -/
def pmCell (row col : Int) : Cell :=
  ((pmMaze.getD row.toNat []).getD col.toNat Cell.wall)

/-- Real floored remainder: the value of Python's `x % m` on floats with a
positive modulus `m`. -/
noncomputable def fmod (x m : ℝ) : ℝ := x - m * ⌊x / m⌋

/-- `np.clip` on one component. -/
noncomputable def clip (v lo hi : ℝ) : ℝ := min (max v lo) hi

/-- `is_colliding(x, y, check_for)` (lines 143–150): floor both coordinates,
return whether the addressed cell (with the vertical flip
`maze[maze_height - 1 - y][x]`) is of the given kind; out of bounds counts as
a collision for every kind. -/
def is_colliding (x y : ℝ) (check_for : Cell) : Prop :=
  if 0 ≤ ⌊x⌋ ∧ ⌊x⌋ < pmSize ∧ 0 ≤ ⌊y⌋ ∧ ⌊y⌋ < pmSize then
    pmCell (pmSize - 1 - ⌊y⌋) ⌊x⌋ = check_for
  else
    True

/-- State of a `PointMazeEnv`: the continuous pose, the episode step counter,
and the post-termination counter (`None` ↦ `none`). -/
structure PMState where
  x : ℝ
  y : ℝ
  theta : ℝ
  episode_steps : Int
  steps_beyond_done : Option Int

/-- The clipped action of `step` (line 101): `ds` is clipped to
`±1/scaling_factor` and `dtheta` to `±π/4`. -/
noncomputable def pmClip (scale : ℝ) (a : ℝ × ℝ) : ℝ × ℝ :=
  (clip a.1 (-(1 / scale)) (1 / scale), clip a.2 (-(Real.pi / 4)) (Real.pi / 4))

/-- The candidate pose of `step` (lines 110–114): the updated heading
`theta' = (theta + dtheta) mod 2π` and the candidate position
`(x + cos(theta')*ds, y + sin(theta')*ds)`. -/
noncomputable def pmCandidate (scale : ℝ) (s : PMState) (a : ℝ × ℝ) : ℝ × ℝ × ℝ :=
  let c := pmClip scale a
  let theta1 := fmod (s.theta + c.2) (2 * Real.pi)
  (theta1, s.x + Real.cos theta1 * c.1, s.y + Real.sin theta1 * c.1)

open Classical in
/-- The pose stored after the collision test (lines 116–120): on a wall
collision of the candidate position the stored pose is unchanged (position
and heading alike); otherwise all three components are updated.  Returned as
`(x, y, theta)`. -/
noncomputable def pmNewPose (scale : ℝ) (s : PMState) (a : ℝ × ℝ) : ℝ × ℝ × ℝ :=
  let c := pmCandidate scale s a
  if is_colliding c.2.1 c.2.2 Cell.wall then (s.x, s.y, s.theta)
  else (c.2.1, c.2.2, c.1)

/-- The termination test of `step` (line 122): the stored position lies in
the goal cell. -/
noncomputable def pmDone (scale : ℝ) (s : PMState) (a : ℝ × ℝ) : Prop :=
  let p := pmNewPose scale s a
  is_colliding p.1 p.2.1 Cell.goal

open Classical in
/-- `PointMazeEnv.step` (lines 100–140): clip the action, update the pose,
test the goal, then compute the reward (−0.1 per step, +100 once on the first
goal arrival) and maintain `steps_beyond_done`.  Returns
`(new state, reward, done)`. -/
noncomputable def pmStep (scale : ℝ) (s : PMState) (a : ℝ × ℝ) :
    PMState × ℝ × Prop :=
  let p := pmNewPose scale s a
  let done := pmDone scale s a
  let rsbd : ℝ × Option Int :=
    match s.steps_beyond_done with
    | none => if done then (-(1/10) + 100, some 0) else (-(1/10), none)
    | some k => (-(1/10), some (k + 1))
  ({ x := p.1, y := p.2.1, theta := p.2.2, episode_steps := s.episode_steps + 1,
     steps_beyond_done := rsbd.2 }, rsbd.1, done)

/-- `PointMazeEnv.reset` (lines 156–162): the pose is the starting point
`(1.5, 1.5, 0)` jittered by the drawn noise, with the heading reduced mod
2π. -/
noncomputable def pmReset (n1 n2 n3 : ℝ) : PMState :=
  { x := 1.5 + n1, y := 1.5 + n2, theta := fmod (0 + n3) (2 * Real.pi),
    episode_steps := 0, steps_beyond_done := none }

/-- Runs a sequence of actions through `pmStep`, keeping only the state. -/
noncomputable def pmRun (scale : ℝ) (s : PMState) (acts : List (ℝ × ℝ)) : PMState :=
  acts.foldl (fun st a => (pmStep scale st a).1) s

/-! ## Concrete instances used to evaluate the dynamics -/

/-- The all-zero door-offset draw for GridWorld generation. -/
def zf : Nat → Nat → Int := fun _ _ => 0

/-- A 3×3-room, 2×2-grid GridWorld state with the player standing on the key
cell at `(0, 0)` (such a state arises directly from `reset`, which allows the
player and the key to be drawn at the same cell). -/
def gOnKey : GridWorld :=
  { ROOM_SIZE := 3, ROOM_COUNT := 2, MAX_STEPS := 72, player := 0, key := 0,
    car := 8, doors := [], door_pairing := [], visited_key := false, steps := 0 }

/-- A GridWorld state with the player at `(0, 0)` and the key and car
elsewhere. -/
def gCorner : GridWorld :=
  { ROOM_SIZE := 3, ROOM_COUNT := 2, MAX_STEPS := 72, player := 0, key := 7,
    car := 8, doors := [], door_pairing := [], visited_key := false, steps := 0 }

/-- A GridWorld state with the key and the car on the same cell `(1, 0)`,
one legal move east of the player. -/
def gKeyCar : GridWorld :=
  { ROOM_SIZE := 3, ROOM_COUNT := 2, MAX_STEPS := 72, player := 0, key := 1,
    car := 1, doors := [], door_pairing := [], visited_key := false, steps := 0 }

/-- A GridWorld state with the key already collected and the car one legal
move east of the player. -/
def gCarOnly : GridWorld :=
  { ROOM_SIZE := 3, ROOM_COUNT := 2, MAX_STEPS := 72, player := 0, key := -1,
    car := 1, doors := [], door_pairing := [], visited_key := true, steps := 0 }

/-- A PointMaze pose at `(1.2, 1.5)` heading `3π/4`. -/
noncomputable def pmS0 : PMState :=
  { x := 1.2, y := 1.5, theta := 3 * Real.pi / 4, episode_steps := 0,
    steps_beyond_done := none }

/-- The action `(ds, dtheta) = (1/4, π/4)`, already within the clip bounds
for `scaling_factor = 4`. -/
noncomputable def pmA0 : ℝ × ℝ := (1/4, Real.pi / 4)

/-- A PointMaze pose inside the open cell just below the goal row, at
`(1.5, 3.5)` heading `0`: cell `(1, 3)` is the goal cell of the maze. -/
noncomputable def pmS1 : PMState :=
  { x := 3/2, y := 7/2, theta := 0, episode_steps := 0,
    steps_beyond_done := none }

/-- The same pose as `pmS1` but after termination
(`steps_beyond_done = some 0`). -/
noncomputable def pmS2 : PMState :=
  { x := 3/2, y := 7/2, theta := 0, episode_steps := 5,
    steps_beyond_done := some 0 }

/-- The do-nothing action `(0, 0)`. -/
def pmA1 : ℝ × ℝ := (0, 0)

/-! ## Helper lemmas -/

lemma fmod_nonneg (x m : ℝ) (hm : 0 < m) : 0 ≤ fmod x m := by
  unfold fmod
  have h : (⌊x / m⌋ : ℝ) * m ≤ x := (le_div_iff₀ hm).mp (Int.floor_le (x / m))
  nlinarith

lemma fmod_lt (x m : ℝ) (hm : 0 < m) : fmod x m < m := by
  unfold fmod
  have h : x < ((⌊x / m⌋ : ℝ) + 1) * m := (div_lt_iff₀ hm).mp (Int.lt_floor_add_one (x / m))
  nlinarith

lemma fmod_eq_self (x m : ℝ) (h0 : 0 ≤ x) (h1 : x < m) : fmod x m = x := by
  have hm : 0 < m := lt_of_le_of_lt h0 h1
  have hz : ⌊x / m⌋ = 0 := by
    rw [Int.floor_eq_zero_iff]
    exact ⟨div_nonneg h0 hm.le, (div_lt_one hm).mpr h1⟩
  unfold fmod
  rw [hz]
  simp

lemma mem_pairSym {γ : Type} (l : List γ) (u v : γ → Int) (a b : Int) :
    ((a, b) ∈ l.flatMap (fun c => [(u c, v c), (v c, u c)])) ↔
      ((b, a) ∈ l.flatMap (fun c => [(u c, v c), (v c, u c)])) := by
  have key : ∀ x y : Int, (x, y) ∈ l.flatMap (fun c => [(u c, v c), (v c, u c)]) →
      (y, x) ∈ l.flatMap (fun c => [(u c, v c), (v c, u c)]) := by
    intro x y h
    rw [List.mem_flatMap] at h ⊢
    obtain ⟨c, hc, h⟩ := h
    refine ⟨c, hc, ?_⟩
    simp only [List.mem_cons, List.not_mem_nil, or_false] at h ⊢
    rcases h with h | h
    · right
      rw [Prod.mk.injEq] at h ⊢
      exact ⟨h.2, h.1⟩
    · left
      rw [Prod.mk.injEq] at h ⊢
      exact ⟨h.2, h.1⟩
  exact ⟨key a b, key b a⟩

lemma gwDoors_symm (RS RC : Nat) (hoff voff : Nat → Nat → Int) (a b : Int) :
    ((a, b) ∈ gwDoors RS RC hoff voff) ↔ ((b, a) ∈ gwDoors RS RC hoff voff) := by
  unfold gwDoors
  simp only [List.mem_append]
  exact or_congr (mem_pairSym _ _ _ _ _) (mem_pairSym _ _ _ _ _)

lemma gwStep_doors (g : GridWorld) (a : Fin 4) : (gwStep g a).1.doors = g.doors := rfl

lemma gwRun_doors (g : GridWorld) (acts : List (Fin 4)) :
    (gwRun g acts).doors = g.doors := by
  induction acts generalizing g with
  | nil => rfl
  | cons a l ih => exact ih ((gwStep g a).1)

/-! ## Claim theorems -/

/-- C5: in the Discrete Decision Process, for every in-episode state
(`1 ≤ current_state ≤ 5`), every action and every drawn roll, `step` returns
`done = true` exactly when the transitioned state is 0, with reward 1 if
`visited_last` holds after the transition and 1/100 otherwise; when the
transitioned state is not 0 it returns reward 0 and `done = false`. -/
theorem dsdp_terminal_reward (s : DSDPState) (action : Nat) (roll : ℚ)
    (h1 : 1 ≤ s.current_state) (h2 : s.current_state ≤ 5) :
    ∃ obs,
      ((dsdpTransition s action roll).current_state = 0 →
        dsdpStep s action roll = some (obs,
          (if (dsdpTransition s action roll).visited_last = true then 1 else 1/100),
          true, dsdpTransition s action roll)) ∧
      ((dsdpTransition s action roll).current_state ≠ 0 →
        dsdpStep s action roll = some (obs, 0, false, dsdpTransition s action roll)) := by
  have hmove : (dsdpTransition s action roll).current_state = s.current_state - 1 ∨
      ((dsdpTransition s action roll).current_state = s.current_state + 1 ∧
        s.current_state ≠ 5) := by
    unfold dsdpTransition
    dsimp only
    split_ifs with hA hB
    · left; rfl
    · right; exact ⟨rfl, hB.2⟩
    · left; rfl
  have hb : -TOTAL_STATES ≤ (dsdpTransition s action roll).current_state ∧
      (dsdpTransition s action roll).current_state < TOTAL_STATES := by
    unfold TOTAL_STATES
    rcases hmove with h | ⟨h, h5⟩ <;> omega
  refine ⟨(List.range 6).map (fun i => if (i : Int) =
      (if (dsdpTransition s action roll).current_state < 0 then
        (dsdpTransition s action roll).current_state + TOTAL_STATES
      else (dsdpTransition s action roll).current_state) then 1 else 0), ?_, ?_⟩
  · intro h0
    unfold dsdpStep one_hot
    dsimp only
    rw [if_pos hb]
    dsimp only
    rw [if_pos h0]
    by_cases hv : (dsdpTransition s action roll).visited_last = true
    · simp [hv]
    · simp [hv]
  · intro h0
    unfold dsdpStep one_hot
    dsimp only
    rw [if_pos hb]
    dsimp only
    rw [if_neg h0]

/-- C5 witness: from the initial state, action 0 with any roll terminates the
episode at state 0 with reward 1/100 (state 5 never visited). -/
theorem dsdp_terminal_reward_witness :
    ∃ obs, dsdpStep ⟨1, false⟩ 0 0 = some (obs,
      (if (dsdpTransition ⟨1, false⟩ 0 0).visited_last = true then 1 else 1/100),
      true, dsdpTransition ⟨1, false⟩ 0 0) := by
  obtain ⟨obs, hL, hR⟩ := dsdp_terminal_reward ⟨1, false⟩ 0 0 (by decide) (by decide)
  exact ⟨obs, hL (by decide)⟩

/-- C9 (refuted as stated, code bug): once the Discrete Decision Process has
terminated at state 0, six further left-steps still complete, but the
seventh reaches state −7 and `one_hot` raises `IndexError`
(`buffer[-7]` on a 6-element buffer), so `step` crashes. -/
theorem dsdp_post_done_crash :
    dsdpRun ⟨0, true⟩ (List.replicate 6 (0, 0)) = some ⟨-6, true⟩ ∧
      dsdpRun ⟨0, true⟩ (List.replicate 7 (0, 0)) = none := by
  decide

/-- C2 (refuted as stated, code bug): with `ROOM_SIZE = 3`, `ROOM_COUNT = 2`
and all door offsets drawn as 0, `reset` creates the vertical door between
cells 3 = (3,0) and 2 = (2,0) — both directed entries are in the door map —
yet the two entries appended to `door_pairing` for it are 3 and 4 (cell
(4,0)), because line 86 appends `x_coord + 1` where the door links
`x_coord - 1`; the endpoint 2 never appears in the sequence. -/
theorem gw_pairing_mismatch :
    ((3 : Int), (2 : Int)) ∈ gwDoors 3 2 zf zf ∧
      ((2 : Int), (3 : Int)) ∈ gwDoors 3 2 zf zf ∧
      gwPairing 3 2 zf zf = [18, 12, 21, 15, 3, 4, 21, 22] ∧
      (2 : Int) ∉ gwPairing 3 2 zf zf := by
  decide

/-- C3 (amended): in GridWorld, whenever the destination cell of the chosen
action lies outside the full grid, `step` leaves `player_pos` unchanged, and
— provided the unmoved player is not standing on the key cell, nor on the
car cell with `visited_key` set — returns reward −2.  (As literally stated
the claim fails: the pickup checks run on the unchanged position and can
overwrite the −2.) -/
theorem gw_reject_out_of_bounds (g : GridWorld) (a : Fin 4)
    (hob : gwOutOfBounds g a) :
    (gwStep g a).1.player = g.player ∧
      (g.player ≠ g.key → ¬(g.player = g.car ∧ g.visited_key = true) →
        (gwStep g a).2.1 = -2) := by
  unfold gwStep gwMove
  dsimp only
  rw [if_pos hob]
  dsimp only
  refine ⟨rfl, ?_⟩
  intro hk hc
  have hc' : ¬(g.player = g.car ∧ (if g.player = g.key then true else g.visited_key) = true) := by
    rw [if_neg hk]
    exact hc
  rw [if_neg hc', if_neg hk]

/-- C3 counterexample: the claim as stated is false.  In `gOnKey` the player
stands on the key cell at (0,0); the northward move from (0,0) leaves the
grid, yet `step` returns reward 10 (the key pickup overwrites the −2), not
−2.  The position is unchanged. -/
theorem gw_reject_out_of_bounds_counterexample :
    gwOutOfBounds gOnKey 0 ∧ (gwStep gOnKey 0).2.1 = 10 ∧
      (gwStep gOnKey 0).2.1 ≠ -2 ∧ (gwStep gOnKey 0).1.player = gOnKey.player := by
  decide

/-- C3 witness: at `gCorner` (player at (0,0), key and car elsewhere) the
northward move is rejected with reward −2 and the player does not move. -/
theorem gw_reject_out_of_bounds_witness :
    (gwStep gCorner 0).1.player = gCorner.player ∧ (gwStep gCorner 0).2.1 = -2 := by
  obtain ⟨h1, h2⟩ := gw_reject_out_of_bounds gCorner 0 (by decide)
  exact ⟨h1, h2 (by decide) (by decide)⟩

/-- C4: GridWorld's `step` computes the reward in this exact order: the
movement/collision reward first, then the key check which overwrites it with
10 (and sets `visited_key`), then the car check — gated by `visited_key` as
just updated — which adds 40 and ends the episode; landing on the key and
the car in the same step therefore yields exactly 50. -/
theorem gw_reward_order (g : GridWorld) (a : Fin 4) :
    ((gwStep g a).2.1 =
      (if (gwMove g a).1 = g.car ∧ ((gwMove g a).1 = g.key ∨ g.visited_key = true) then
        (if (gwMove g a).1 = g.key then 10 else (gwMove g a).2) + 40
      else
        (if (gwMove g a).1 = g.key then 10 else (gwMove g a).2)))
    ∧ ((gwMove g a).1 = g.key → (gwStep g a).1.visited_key = true)
    ∧ ((gwMove g a).1 = g.car ∧ ((gwMove g a).1 = g.key ∨ g.visited_key = true) →
        (gwStep g a).2.2 = true)
    ∧ ((gwMove g a).1 = g.key ∧ (gwMove g a).1 = g.car → (gwStep g a).2.1 = 50) := by
  refine ⟨?_, ?_, ?_, ?_⟩
  · unfold gwStep
    dsimp only
    by_cases hk : (gwMove g a).1 = g.key <;> by_cases hc : (gwMove g a).1 = g.car <;>
      by_cases hv : g.visited_key = true <;> simp [hk, hc, hv]
  · intro hk
    unfold gwStep
    dsimp only
    simp [hk]
  · intro hcarHit
    obtain ⟨hc, hkv⟩ := hcarHit
    have hvk : (if (gwMove g a).1 = g.key then true else g.visited_key) = true := by
      rcases hkv with hk | hv
      · simp [hk]
      · by_cases hk : (gwMove g a).1 = g.key <;> simp [hk, hv]
    unfold gwStep
    dsimp only
    by_cases hs : g.steps + 1 > g.MAX_STEPS
    · rw [if_pos hs]
    · rw [if_neg hs, if_pos ⟨hc, hvk⟩]
  · intro hkc
    obtain ⟨hk, hc⟩ := hkc
    have hvk : (if (gwMove g a).1 = g.key then true else g.visited_key) = true := by
      simp [hk]
    unfold gwStep
    dsimp only
    rw [if_pos ⟨hc, hvk⟩, if_pos hk]
    norm_num

/-- C4 witness: in `gKeyCar` the key and the car share the cell one move east
of the player; taking that move yields reward exactly 50, sets
`visited_key`, and ends the episode. -/
theorem gw_reward_order_witness :
    (gwStep gKeyCar 3).2.1 = 50 ∧ (gwStep gKeyCar 3).1.visited_key = true ∧
      (gwStep gKeyCar 3).2.2 = true :=
  ⟨(gw_reward_order gKeyCar 3).2.2.2 (by decide),
   (gw_reward_order gKeyCar 3).2.1 (by decide),
   (gw_reward_order gKeyCar 3).2.2.1 (by decide)⟩

/-- C6: the GridWorld door map is symmetric after `reset` — for every random
draw — and stays so after any sequence of `step` calls, which never modify
it: `(a, b)` is recorded iff `(b, a)` is. -/
theorem gw_doors_symmetric (RS RC : Nat) (pd kd cd : Int × Int)
    (hoff voff : Nat → Nat → Int) (acts : List (Fin 4)) (a b : Int) :
    ((a, b) ∈ (gwRun (gwReset RS RC pd kd cd hoff voff) acts).doors) ↔
      ((b, a) ∈ (gwRun (gwReset RS RC pd kd cd hoff voff) acts).doors) := by
  rw [gwRun_doors]
  exact gwDoors_symm RS RC hoff voff a b

/-- C7: in GridWorld, the car is only ever picked up (and the +40 granted,
on top of the reward computed so far, ending the episode) when `visited_key`
holds at the time of the car check of that step. -/
theorem gw_car_requires_key (g : GridWorld) (a : Fin 4)
    (hcar : g.car ≠ -1) (hpick : (gwStep g a).1.car = -1) :
    (gwStep g a).1.visited_key = true ∧
      (gwStep g a).2.1 = (if (gwMove g a).1 = g.key then 10 else (gwMove g a).2) + 40 ∧
      (gwStep g a).2.2 = true := by
  unfold gwStep at hpick ⊢
  dsimp only at hpick ⊢
  by_cases hit : (gwMove g a).1 = g.car ∧
      (if (gwMove g a).1 = g.key then true else g.visited_key) = true
  · rw [if_pos hit]
    refine ⟨?_, rfl, ?_⟩
    · by_cases hk : (gwMove g a).1 = g.key
      · simp [hk]
      · simpa [hk] using hit.2
    · rw [if_pos hit]
      split_ifs <;> rfl
  · rw [if_neg hit] at hpick
    exact absurd hpick hcar

/-- C7 witness: in `gCarOnly` the key is already collected and the car sits
one move east; taking that move picks up the car with `visited_key` true,
reward 0 + 40, and ends the episode. -/
theorem gw_car_requires_key_witness :
    (gwStep gCarOnly 3).1.visited_key = true ∧
      (gwStep gCarOnly 3).2.1 =
        (if (gwMove gCarOnly 3).1 = gCarOnly.key then 10 else (gwMove gCarOnly 3).2) + 40 ∧
      (gwStep gCarOnly 3).2.2 = true :=
  gw_car_requires_key gCarOnly 3 (by decide) (by decide)

lemma pmStep_theta_inv (scale : ℝ) (s : PMState) (a : ℝ × ℝ)
    (h : 0 ≤ s.theta ∧ s.theta < 2 * Real.pi) :
    0 ≤ (pmStep scale s a).1.theta ∧ (pmStep scale s a).1.theta < 2 * Real.pi := by
  have h2pi : (0 : ℝ) < 2 * Real.pi := by positivity
  show 0 ≤ (pmNewPose scale s a).2.2 ∧ (pmNewPose scale s a).2.2 < 2 * Real.pi
  unfold pmNewPose
  dsimp only
  split_ifs with hcol
  · exact h
  · unfold pmCandidate
    dsimp only
    exact ⟨fmod_nonneg _ _ h2pi, fmod_lt _ _ h2pi⟩

lemma pmRun_theta_inv (scale : ℝ) (acts : List (ℝ × ℝ)) (s : PMState)
    (h : 0 ≤ s.theta ∧ s.theta < 2 * Real.pi) :
    0 ≤ (pmRun scale s acts).theta ∧ (pmRun scale s acts).theta < 2 * Real.pi := by
  induction acts generalizing s with
  | nil => exact h
  | cons a l ih => exact ih ((pmStep scale s a).1) (pmStep_theta_inv scale s a h)

/-- C8: in PointMaze, the stored heading lies in `[0, 2π)` after `reset` and
after every sequence of `step` calls, for every noise draw, every scaling
factor and every action sequence. -/
theorem pm_theta_range (scale n1 n2 n3 : ℝ) (acts : List (ℝ × ℝ)) :
    0 ≤ (pmRun scale (pmReset n1 n2 n3) acts).theta ∧
      (pmRun scale (pmReset n1 n2 n3) acts).theta < 2 * Real.pi := by
  have h2pi : (0 : ℝ) < 2 * Real.pi := by positivity
  exact pmRun_theta_inv scale acts _ ⟨fmod_nonneg _ _ h2pi, fmod_lt _ _ h2pi⟩

lemma pmClip0 : pmClip 4 pmA0 = (1/4, Real.pi / 4) := by
  have hpi : (0 : ℝ) < Real.pi := Real.pi_pos
  unfold pmClip pmA0 clip
  dsimp only
  rw [Prod.mk.injEq]
  constructor
  · rw [max_eq_left (by norm_num), min_self]
  · rw [max_eq_left (by linarith), min_self]

lemma pmCand0 : pmCandidate 4 pmS0 pmA0 = (Real.pi, 19/20, 3/2) := by
  unfold pmCandidate
  rw [pmClip0]
  dsimp only
  unfold pmS0
  dsimp only
  have hsum : 3 * Real.pi / 4 + Real.pi / 4 = Real.pi := by ring
  rw [hsum]
  have hfm : fmod Real.pi (2 * Real.pi) = Real.pi :=
    fmod_eq_self _ _ Real.pi_pos.le (by linarith [Real.pi_pos])
  rw [hfm, Real.cos_pi, Real.sin_pi]
  rw [Prod.mk.injEq, Prod.mk.injEq]
  refine ⟨rfl, by norm_num, by norm_num⟩

lemma pm_collide0 : is_colliding (19/20 : ℝ) (3/2 : ℝ) Cell.wall := by
  have hx : ⌊(19/20 : ℝ)⌋ = 0 := by
    apply Int.floor_eq_iff.mpr
    constructor <;> norm_num
  have hy : ⌊(3/2 : ℝ)⌋ = 1 := by
    apply Int.floor_eq_iff.mpr
    constructor <;> norm_num
  unfold is_colliding
  rw [hx, hy]
  rw [if_pos (by decide)]
  decide

/-- C1 (refuted as stated): the claim that on a wall collision the heading
update is still applied is false.  At the pose `pmS0 = (1.2, 1.5, 3π/4)`
with action `(1/4, π/4)`, the candidate position floors to the wall cell
(0, 1), and the heading stored by `step` is the old `3π/4`, not
`theta' = π`. -/
theorem pm_collision_keeps_heading_counterexample :
    is_colliding (pmCandidate 4 pmS0 pmA0).2.1 (pmCandidate 4 pmS0 pmA0).2.2 Cell.wall ∧
      (pmStep 4 pmS0 pmA0).1.theta ≠ (pmCandidate 4 pmS0 pmA0).1 := by
  have hcol : is_colliding (pmCandidate 4 pmS0 pmA0).2.1 (pmCandidate 4 pmS0 pmA0).2.2
      Cell.wall := by
    rw [pmCand0]
    exact pm_collide0
  refine ⟨hcol, ?_⟩
  have hth : (pmStep 4 pmS0 pmA0).1.theta = pmS0.theta := by
    show (pmNewPose 4 pmS0 pmA0).2.2 = pmS0.theta
    unfold pmNewPose
    dsimp only
    rw [if_pos hcol]
  rw [hth, pmCand0]
  unfold pmS0
  dsimp only
  intro hEq
  have hpi := Real.pi_pos
  linarith

/-- C1 (amended): in PointMaze, for every pose and every action, if the
candidate position floor-converts to a wall cell then `step` leaves the
whole stored pose unchanged: the position `(x, y)` and also the heading —
the heading update is discarded on collision, not kept. -/
theorem pm_collision_keeps_pose (scale : ℝ) (s : PMState) (a : ℝ × ℝ)
    (h : is_colliding (pmCandidate scale s a).2.1 (pmCandidate scale s a).2.2 Cell.wall) :
    (pmStep scale s a).1.x = s.x ∧ (pmStep scale s a).1.y = s.y ∧
      (pmStep scale s a).1.theta = s.theta := by
  have hp : pmNewPose scale s a = (s.x, s.y, s.theta) := by
    unfold pmNewPose
    dsimp only
    rw [if_pos h]
  refine ⟨?_, ?_, ?_⟩
  · show (pmNewPose scale s a).1 = s.x
    rw [hp]
  · show (pmNewPose scale s a).2.1 = s.y
    rw [hp]
  · show (pmNewPose scale s a).2.2 = s.theta
    rw [hp]

/-- C1 witness: the amended theorem applied at the colliding input `pmS0`,
`(1/4, π/4)`. -/
theorem pm_collision_keeps_pose_witness :
    (pmStep 4 pmS0 pmA0).1.x = pmS0.x ∧ (pmStep 4 pmS0 pmA0).1.y = pmS0.y ∧
      (pmStep 4 pmS0 pmA0).1.theta = pmS0.theta :=
  pm_collision_keeps_pose 4 pmS0 pmA0 (by rw [pmCand0]; exact pm_collide0)

/-- C10: in PointMaze the +100 goal bonus is granted at most once per
episode: on the first step whose resulting position lies in the goal cell
(`steps_beyond_done` still `none`) the reward is exactly
99.9 = −0.1 + 100 and `steps_beyond_done` is set to 0; on every later step
of the episode (`steps_beyond_done = some k`) the reward is exactly −0.1 —
whether or not the position is in the goal cell — and `steps_beyond_done`
is incremented; a non-goal step with `steps_beyond_done = none` yields −0.1
and leaves it `none`. -/
theorem pm_goal_bonus_once (scale : ℝ) (s : PMState) (a : ℝ × ℝ) :
    (s.steps_beyond_done = none → pmDone scale s a →
      (pmStep scale s a).2.1 = 999/10 ∧
        (pmStep scale s a).1.steps_beyond_done = some 0) ∧
    (∀ k : Int, s.steps_beyond_done = some k →
      (pmStep scale s a).2.1 = -(1/10) ∧
        (pmStep scale s a).1.steps_beyond_done = some (k + 1)) ∧
    (s.steps_beyond_done = none → ¬ pmDone scale s a →
      (pmStep scale s a).2.1 = -(1/10) ∧
        (pmStep scale s a).1.steps_beyond_done = none) := by
  refine ⟨?_, ?_, ?_⟩
  · intro hn hd
    unfold pmStep
    dsimp only
    rw [hn]
    dsimp only
    rw [if_pos hd]
    exact ⟨by norm_num, rfl⟩
  · intro k hk
    unfold pmStep
    dsimp only
    rw [hk]
    exact ⟨rfl, rfl⟩
  · intro hn hd
    unfold pmStep
    dsimp only
    rw [hn]
    dsimp only
    rw [if_neg hd]
    exact ⟨rfl, rfl⟩

lemma pmClip1 : pmClip 4 pmA1 = (0, 0) := by
  have hpi : (0 : ℝ) < Real.pi := Real.pi_pos
  unfold pmClip pmA1 clip
  dsimp only
  rw [Prod.mk.injEq]
  constructor
  · rw [max_eq_left (by norm_num), min_eq_left (by norm_num)]
  · rw [max_eq_left (by linarith), min_eq_left (by linarith)]

lemma pmCand1 : pmCandidate 4 pmS1 pmA1 = (0, 3/2, 7/2) := by
  unfold pmCandidate
  rw [pmClip1]
  dsimp only
  unfold pmS1
  dsimp only
  have hfm : fmod (0 + 0 : ℝ) (2 * Real.pi) = 0 := by
    rw [show (0 + 0 : ℝ) = 0 by norm_num]
    exact fmod_eq_self 0 _ le_rfl (by positivity)
  rw [hfm, Real.cos_zero, Real.sin_zero]
  rw [Prod.mk.injEq, Prod.mk.injEq]
  refine ⟨rfl, by norm_num, by norm_num⟩

lemma pm_nocollide1 : ¬ is_colliding (3/2 : ℝ) (7/2 : ℝ) Cell.wall := by
  have hx : ⌊(3/2 : ℝ)⌋ = 1 := by
    apply Int.floor_eq_iff.mpr
    constructor <;> norm_num
  have hy : ⌊(7/2 : ℝ)⌋ = 3 := by
    apply Int.floor_eq_iff.mpr
    constructor <;> norm_num
  unfold is_colliding
  rw [hx, hy]
  rw [if_pos (by decide)]
  decide

lemma pm_goal1 : is_colliding (3/2 : ℝ) (7/2 : ℝ) Cell.goal := by
  have hx : ⌊(3/2 : ℝ)⌋ = 1 := by
    apply Int.floor_eq_iff.mpr
    constructor <;> norm_num
  have hy : ⌊(7/2 : ℝ)⌋ = 3 := by
    apply Int.floor_eq_iff.mpr
    constructor <;> norm_num
  unfold is_colliding
  rw [hx, hy]
  rw [if_pos (by decide)]
  decide

lemma pm_pose1 : pmNewPose 4 pmS1 pmA1 = (3/2, 7/2, 0) := by
  unfold pmNewPose
  dsimp only
  rw [pmCand1]
  rw [if_neg pm_nocollide1]

lemma pm_done1 : pmDone 4 pmS1 pmA1 := by
  unfold pmDone
  dsimp only
  rw [pm_pose1]
  exact pm_goal1

/-- C10 witness: from the pose `pmS1 = (1.5, 3.5, 0)` — the cell below the
goal row is the goal cell — the do-nothing action terminates with reward
exactly 99.9 and `steps_beyond_done = some 0`; from the already-terminated
`pmS2` the same action returns reward exactly −0.1 and increments the
counter. -/
theorem pm_goal_bonus_once_witness :
    ((pmStep 4 pmS1 pmA1).2.1 = 999/10 ∧
      (pmStep 4 pmS1 pmA1).1.steps_beyond_done = some 0) ∧
    ((pmStep 4 pmS2 pmA1).2.1 = -(1/10) ∧
      (pmStep 4 pmS2 pmA1).1.steps_beyond_done = some (0 + 1)) :=
  ⟨(pm_goal_bonus_once 4 pmS1 pmA1).1 rfl pm_done1,
   (pm_goal_bonus_once 4 pmS2 pmA1).2.1 0 rfl⟩
